import Mathlib

/-!
Verification of the member-identity, login, category-resolution and payment
logic of the `the-c-fitness-club` Django application (`mainapp`).

The Python views, middleware, forms and models are shallowly embedded as pure
Lean functions.  Database tables become lists of records, the Django request
becomes explicit arguments (the optional `request.member` attribute, the state
of the signed cookie, the GET/POST parameters), and the rendered/redirected
HTTP response becomes an inductive `Response` value.  String operations that
Django/Python perform (`str.lower`, `str.strip`, `str.split`, `__iexact`,
`__icontains`, `urlparse`, `int(...)`) are embedded as structurally recursive
functions over `String.data`, so that every definition evaluates by kernel
reduction on concrete inputs.
-/

set_option maxRecDepth 4000

namespace CFitness

/-! ## Python / Django string primitives -/

/-- Python `str.lower()` (and the SQL `LOWER` used by `__iexact` /
`__icontains`), restricted to ASCII case folding as `Char.toLower` does. -/
def pyLower (s : String) : String := String.mk (s.data.map Char.toLower)

/-- Python `str.strip()` with no arguments: drop leading and trailing
whitespace. -/
def pyStrip (s : String) : String :=
  String.mk (((s.data.dropWhile Char.isWhitespace).reverse.dropWhile Char.isWhitespace).reverse)

/-- Django `field__iexact=value`: case-insensitive exact match. -/
def iexact (field value : String) : Bool := pyLower field == pyLower value

/-- Django `field__iexact=value` on a nullable column: SQL `NULL` matches
nothing. -/
def iexactOpt (field : Option String) (value : String) : Bool :=
  match field with
  | none => false
  | some s => iexact s value

/-- `needle.isPrefixOf hay` on character lists. -/
def hasPrefixChars : List Char → List Char → Bool
  | _, [] => true
  | [], _ :: _ => false
  | c :: cs, d :: ds => c == d && hasPrefixChars cs ds

/-- `needle` occurs contiguously inside `hay`. -/
def hasInfixChars (hay needle : List Char) : Bool :=
  match hay with
  | [] => needle.isEmpty
  | _ :: t => hasPrefixChars hay needle || hasInfixChars t needle

/-- Django `field__icontains=value`: case-insensitive substring match. -/
def icontains (field value : String) : Bool :=
  hasInfixChars (pyLower field).data (pyLower value).data

/-- Django `field__icontains=value` on a nullable column. -/
def icontainsOpt (field : Option String) (value : String) : Bool :=
  match field with
  | none => false
  | some s => icontains s value

/-- Decimal-digit run of Python `int(...)`: single underscores are allowed
between digits, anything else fails. `acc` is the value accumulated so far. -/
def pyIntDigits : Nat → List Char → Option Nat
  | acc, [] => some acc
  | acc, '_' :: c :: cs =>
      if c.isDigit then pyIntDigits (10 * acc + (c.toNat - 48)) cs else none
  | _, ['_'] => none
  | acc, c :: cs =>
      if c.isDigit then pyIntDigits (10 * acc + (c.toNat - 48)) cs else none

/-- Python `int(s)` on a string: surrounding whitespace is stripped, an
optional sign is allowed, then a non-empty digit run (ASCII digits; unicode
digits are not modelled); any other shape raises `ValueError`, embedded as
`none`. -/
def pyInt (s : String) : Option Int :=
  match (pyStrip s).data with
  | [] => none
  | '+' :: rest =>
      match rest with
      | [] => none
      | c :: _ => if c.isDigit then (pyIntDigits 0 rest).map Int.ofNat else none
  | '-' :: rest =>
      match rest with
      | [] => none
      | c :: _ =>
          if c.isDigit then (pyIntDigits 0 rest).map (fun n => -(Int.ofNat n)) else none
  | c :: cs =>
      if c.isDigit then (pyIntDigits 0 (c :: cs)).map Int.ofNat else none

/-! ## Data model (mainapp/models.py) -/

/-- `mainapp.models.Member`.  `password` holds the stored password hash.
`join_date` is not modelled (no claim mentions it). -/
structure Member where
  id : Nat
  username : String
  full_name : String
  email : String
  password : String
deriving Repr, DecidableEq

/-- `mainapp.models.Category` (normalized category; `description`/`image` are
presentation-only and omitted). -/
structure Category where
  id : Nat
  name : String
  slug : String
deriving Repr, DecidableEq

/-- `mainapp.models.FitnessClass`.  `category` is the legacy free-text column
(nullable), `category_fk` the normalized foreign key (nullable, stored as the
referenced `Category.id`).  The `DecimalField` price is modelled by its string
representation (no claim computes with it). -/
structure FitnessClass where
  id : Nat
  name : String
  category : Option String
  category_fk : Option Nat
  price : String
deriving Repr, DecidableEq

/-- `mainapp.models.Plan` (note: its `price` really is a `CharField`). -/
structure Plan where
  id : Nat
  name : String
  price : String
deriving Repr, DecidableEq

/-- `mainapp.models.UpiPayment`.  The `member` foreign key is non-nullable, so
every payment belongs to exactly one member by construction; `fitness_class`
and `plan` are both nullable foreign keys stored as ids.  `submitted_at` is
not modelled. -/
structure UpiPayment where
  member : Nat
  fitness_class : Option Nat
  plan : Option Nat
  amount : String
  upi_ref : String
  screenshot : Option String
  confirmed : Bool
deriving Repr, DecidableEq

/-! ## Requests, cookies and responses -/

/-- State of the signed `member_auth` cookie on an incoming request, as seen
through `request.get_signed_cookie(..., default=None, salt=...)`:
the cookie is absent (the default `none` is returned), its signature does not
verify (`BadSignature` is raised), or it verifies and yields its payload
string. -/
inductive CookieVal where
  | absent
  | badSig
  | ok (payload : String)
deriving Repr, DecidableEq

/-- The observable outcome of a view: an HTTP redirect (carrying the exact
argument handed to `django.shortcuts.redirect`, a URL or a route name), a
rendered template, or the 404 raised by `get_object_or_404`. -/
inductive Response where
  | redirect (target : String)
  | render (template : String)
  | notFound
deriving Repr, DecidableEq

/-- `django.urls.reverse` restricted to the route names of `mainapp/urls.py`
that the embedded views use. -/
def reverse (name : String) : String :=
  match name with
  | "home" => "/"
  | "signup" => "/signup/"
  | "plan_registration" => "/registration/"
  | _ => ""

/-! ## views.get_current_member and the cookie decoders -/

/-- `mainapp.views.get_current_member`.  Priority: `request.member` when the
middleware populated it (a model instance is always truthy), else decode and
verify the signed cookie, parse the payload with `int(...)`, and look the id
up with `Member.objects.filter(id=...).first()`.  Every failure path of the
source (`BadSignature`, missing cookie, falsy payload, `ValueError`, missing
row) returns `None`; the function is total and never raises. -/
def get_current_member (request_member : Option Member) (db : List Member)
    (cookie : CookieVal) : Option Member :=
  match request_member with
  | some m => some m
  | none =>
    match cookie with
    | CookieVal.badSig => none
    | CookieVal.absent => none
    | CookieVal.ok s =>
      if s = "" then none
      else
        match pyInt s with
        | none => none
        | some i => (db.filter (fun m => (m.id : Int) == i)).head?

/-- `mainapp.middleware.MemberAuthMiddleware.__call__`: the value it stores in
`request.member` (the downstream `get_response` call is outside the model). -/
def memberAuthMiddleware (db : List Member) (cookie : CookieVal) : Option Member :=
  match cookie with
  | CookieVal.badSig => none
  | CookieVal.absent => none
  | CookieVal.ok s =>
    if s = "" then none
    else
      match pyInt s with
      | none => none
      | some i => (db.filter (fun m => (m.id : Int) == i)).head?

/-- `mainapp.context_processors.current_member`: it decodes the cookie into a
local `site_member` exactly as the middleware does, but the returned context
is `{"site_member": getattr(request, "member", None)}` — the decoded value is
dead. -/
def current_member (request_member : Option Member) (db : List Member)
    (cookie : CookieVal) : Option Member :=
  let _site_member := memberAuthMiddleware db cookie
  request_member

/-- Modelled from the claim's wording for comparison: the context processor
that just reads `request.member`. -/
def current_member_spec (request_member : Option Member) : Option Member :=
  request_member

/-! ## urllib.parse.urlparse (scheme/netloc only) and views._redirect_with_next -/

/-- The characters allowed after the initial letter of a URL scheme
(CPython's `scheme_chars`). -/
def schemeChar (c : Char) : Bool :=
  c.isAlpha || c.isDigit || c == '+' || c == '-' || c == '.'

/-- Split a character list at its first `':'`, returning the part before and
the part after it. -/
def splitAtColon : List Char → Option (List Char × List Char)
  | [] => none
  | c :: cs =>
    if c = ':' then some ([], cs)
    else
      match splitAtColon cs with
      | some (pre, post) => some (c :: pre, post)
      | none => none

/-- The `(scheme, netloc)` pair of `urllib.parse.urlparse`: a scheme is
recognised when the text before the first `':'` is non-empty, starts with an
ASCII letter and continues with scheme characters (and is lowercased); a
netloc is the text after a leading `"//"` of the remainder, up to the next
`'/'`, `'?'` or `'#'`. -/
def urlparse_scheme_netloc (url : String) : String × String :=
  let l := url.data
  let split :=
    match splitAtColon l with
    | some (pre, post) =>
      match pre with
      | c :: cs =>
          if c.isAlpha && cs.all schemeChar
          then (String.mk (pre.map Char.toLower), post)
          else ("", l)
      | [] => ("", l)
    | none => ("", l)
  let netloc :=
    match split.2 with
    | '/' :: '/' :: r =>
        String.mk (r.takeWhile (fun c => !(c == '/' || c == '?' || c == '#')))
    | _ => ""
  (split.1, netloc)

/-- Python's `a or b` on two optional strings, where `None` and `""` are
falsy (`request.GET.get("next") or request.POST.get("next")`). -/
def pyOrStr (a b : Option String) : Option String :=
  match a with
  | some s => if s = "" then b else some s
  | none => b

/-- `mainapp.views._redirect_with_next`: redirect to the `next` query/POST
parameter when it is present, truthy, and its parse shows neither a scheme
nor a netloc, else redirect to `default_name`. -/
def redirect_with_next (default_name : String) (getNext postNext : Option String) :
    Response :=
  match pyOrStr getNext postNext with
  | some next_url =>
    if next_url ≠ "" then
      let parsed := urlparse_scheme_netloc next_url
      if parsed.1 = "" ∧ parsed.2 = "" then Response.redirect next_url
      else Response.redirect default_name
    else Response.redirect default_name
  | none => Response.redirect default_name

/-! ## Login views (views.login_view / views.member_login_view) -/

/-- The member lookup both login views perform:
`Member.objects.filter(email__iexact=u).first() or
 Member.objects.filter(username__iexact=u).first()`. -/
def findMember (db : List Member) (ident : String) : Option Member :=
  match db.find? (fun m => iexact m.email ident) with
  | some m => some m
  | none => db.find? (fun m => iexact m.username ident)

/-- What a login view observably does: its HTTP response, the Django session
user it logged in (the stripped identifier passed to `authenticate`), and the
member id written into the signed `member_auth` cookie, if any. -/
structure LoginOutcome where
  response : Response
  sessionLogin : Option String
  memberCookie : Option Nat
deriving Repr, DecidableEq

/-- `mainapp.views.login_view` (route `staff_login`).  `adminAuth` embeds
`django.contrib.auth.authenticate` (the admin credential store), `verify`
embeds `check_password(raw, stored_hash)`.  On a non-POST request the login
form is rendered. -/
def login_view (adminAuth verify : String → String → Bool) (db : List Member)
    (is_post : Bool) (username password : String) (getNext postNext : Option String) :
    LoginOutcome :=
  if is_post then
    let u := pyStrip username
    if adminAuth u password then
      { response := redirect_with_next "home" getNext postNext
        sessionLogin := some u
        memberCookie := none }
    else
      match findMember db u with
      | some member =>
        if verify password member.password then
          { response := redirect_with_next "home" getNext postNext
            sessionLogin := none
            memberCookie := some member.id }
        else
          { response := Response.render "signup.html"
            sessionLogin := none
            memberCookie := none }
      | none =>
        { response := Response.render "signup.html"
          sessionLogin := none
          memberCookie := none }
  else
    { response := Response.render "signup.html"
      sessionLogin := none
      memberCookie := none }

/-- `mainapp.views.member_login_view` (route `signup`, the member login page).
Identical to `login_view` except that every successful login redirects to
`"home"`, ignoring the request's `next` parameter (which is why the view
still receives it). -/
def member_login_view (adminAuth verify : String → String → Bool) (db : List Member)
    (is_post : Bool) (username password : String) (getNext postNext : Option String) :
    LoginOutcome :=
  if is_post then
    let u := pyStrip username
    if adminAuth u password then
      { response := Response.redirect "home"
        sessionLogin := some u
        memberCookie := none }
    else
      match findMember db u with
      | some member =>
        if verify password member.password then
          { response := Response.redirect "home"
            sessionLogin := none
            memberCookie := some member.id }
        else
          { response := Response.render "signup.html"
            sessionLogin := none
            memberCookie := none }
      | none =>
        { response := Response.render "signup.html"
          sessionLogin := none
          memberCookie := none }
  else
    { response := Response.render "signup.html"
      sessionLogin := none
      memberCookie := none }

/-! ## Category resolution (views.classes_by_category) -/

/-- Lexicographic comparison of character lists by code point — the binary
collation a SQL `ORDER BY` applies to UTF-8 text. -/
def strLeChars : List Char → List Char → Bool
  | [], _ => true
  | _ :: _, [] => false
  | a :: as, b :: bs =>
    if a.toNat = b.toNat then strLeChars as bs
    else decide (a.toNat < b.toNat)

/-- Code-point order on strings. -/
def strLe (a b : String) : Bool := strLeChars a.data b.data

/-- Name ordering used by `.order_by("name")`. -/
def nameLe (a b : FitnessClass) : Prop := strLe a.name b.name = true

instance : DecidableRel nameLe := fun a b => inferInstanceAs (Decidable (_ = true))

/-- `.order_by("name")`: produce the rows sorted by `name` (ties in
unspecified relative order; insertion sort is one witness of that). -/
def order_by_name (l : List FitnessClass) : List FitnessClass :=
  l.insertionSort nameLe

/-- `slug.replace("-", " ").split()`: hyphens become spaces, then Python's
no-argument `split` cuts at whitespace runs and drops empty pieces. -/
def splitWsAux : List Char → List Char → List (List Char)
  | [], acc => if acc.isEmpty then [] else [acc.reverse]
  | c :: cs, acc =>
    if c.isWhitespace then
      if acc.isEmpty then splitWsAux cs [] else acc.reverse :: splitWsAux cs []
    else splitWsAux cs (c :: acc)

/-- The keyword list `classes_by_category` derives from a slug. -/
def split_keywords (slug : String) : List String :=
  (splitWsAux (slug.data.map (fun c => if c = '-' then ' ' else c)) []).map String.mk

/-- One disjunct of the keyword query:
`Q(category__icontains=kw) | Q(name__icontains=kw)`. -/
def class_matches_keyword (k : FitnessClass) (kw : String) : Bool :=
  icontainsOpt k.category kw || icontains k.name kw

/-- `mainapp.views.classes_by_category`.  A slug matching a `Category` row
fetches the classes linked by `category_fk`, falling back (when that is
empty) to an `__iexact` match of the legacy free-text column against the
category's name; a slug matching no row is split into keywords and the
classes matching any keyword are returned, `.distinct()`-ed.  When the slug
yields no keywords at all, the accumulated `Q()` is empty and Django's
`.filter(Q())` returns every row. -/
def classes_by_category (cats : List Category) (classes : List FitnessClass)
    (slug : String) : List FitnessClass :=
  match cats.find? (fun c => c.slug == slug) with
  | some category_obj =>
    let linked := classes.filter (fun k => k.category_fk == some category_obj.id)
    if linked.isEmpty then
      order_by_name (classes.filter (fun k => iexactOpt k.category category_obj.name))
    else
      order_by_name linked
  | none =>
    let keywords := split_keywords slug
    let matched :=
      if keywords.isEmpty then classes
      else classes.filter (fun k => keywords.any (class_matches_keyword k))
    order_by_name matched.dedup

/-! ## Registration (forms.MemberRegistrationForm / views.registration_view) -/

/-- The data a registration POST carries. -/
structure RegistrationData where
  username : String
  full_name : String
  email : String
  password1 : String
  password2 : String
deriving Repr, DecidableEq

/-- `MemberRegistrationForm.clean_email` on a create (no bound instance):
normalise, then reject when any existing member's email `__iexact`-matches. -/
def clean_email (db : List Member) (raw : String) : Except String String :=
  let email := pyLower (pyStrip raw)
  if db.any (fun m => iexact m.email email) then
    Except.error "A member with that email already exists."
  else Except.ok email

/-- `MemberRegistrationForm.clean_username` on a create. -/
def clean_username (db : List Member) (raw : String) : Except String String :=
  let username := pyStrip raw
  if db.any (fun m => iexact m.username username) then
    Except.error "This username is already taken."
  else Except.ok username

/-- `MemberRegistrationForm.is_valid()`.  `fieldOk` abstracts the framework's
own per-field validation (required fields, email format, widget coercion);
the form-specific cleaners are the username/email uniqueness checks and the
password-equality check of `clean` (which only fires when both passwords are
non-empty). -/
def member_registration_form_is_valid (fieldOk : RegistrationData → Bool)
    (db : List Member) (d : RegistrationData) : Bool :=
  fieldOk d
    && (clean_username db d.username).isOk
    && (clean_email db d.email).isOk
    && !(d.password1 != "" && d.password2 != "" && d.password1 != d.password2)

/-- `MemberRegistrationForm.save`: the member persisted on success, with the
normalised fields and the hashed password (`hash` embeds `make_password`). -/
def member_registration_form_save (hash : String → String) (d : RegistrationData)
    (new_id : Nat) : Member :=
  { id := new_id
    username := pyStrip d.username
    full_name := pyStrip d.full_name
    email := pyLower (pyStrip d.email)
    password := hash d.password1 }

/-- `mainapp.views.registration_view`: on a valid POST the member is created
and the browser is redirected to the login page (route name `"signup"`); any
other request re-renders the registration form and leaves the table alone. -/
def registration_view (hash : String → String) (fieldOk : RegistrationData → Bool)
    (db : List Member) (is_post : Bool) (d : RegistrationData) (new_id : Nat) :
    Response × List Member :=
  if is_post then
    if member_registration_form_is_valid fieldOk db d then
      (Response.redirect "signup", db ++ [member_registration_form_save hash d new_id])
    else (Response.render "registration.html", db)
  else (Response.render "registration.html", db)

/-! ## Payment booking (views.book_class_payment / views.book_plan_payment) -/

/-- `mainapp.views.book_class_payment`: resolve the member; an anonymous
visitor is redirected to `reverse("signup") + "?next=/book/class/{id}/"`
before anything else happens; then the class is fetched (404 when absent) and
a POST appends an unconfirmed `UpiPayment` carrying the member, the class and
its price.  The QR-code generation only feeds the rendered template. -/
def book_class_payment (request_member : Option Member) (member_db : List Member)
    (cookie : CookieVal) (classes : List FitnessClass) (class_id : Nat)
    (is_post : Bool) (upi_ref : String) (screenshot : Option String)
    (payments : List UpiPayment) : Response × List UpiPayment :=
  match get_current_member request_member member_db cookie with
  | none =>
    (Response.redirect (reverse "signup" ++ "?next=/book/class/" ++ toString class_id ++ "/"),
     payments)
  | some member =>
    match classes.find? (fun k => k.id == class_id) with
    | none => (Response.notFound, payments)
    | some gym_class =>
      if is_post then
        (Response.render "payment_page.html",
         payments ++
           [{ member := member.id
              fitness_class := some gym_class.id
              plan := none
              amount := gym_class.price
              upi_ref := upi_ref
              screenshot := screenshot
              confirmed := false }])
      else (Response.render "payment_page.html", payments)

/-- `mainapp.views.book_plan_payment`: the plan twin of
`book_class_payment`. -/
def book_plan_payment (request_member : Option Member) (member_db : List Member)
    (cookie : CookieVal) (plans : List Plan) (plan_id : Nat)
    (is_post : Bool) (upi_ref : String) (screenshot : Option String)
    (payments : List UpiPayment) : Response × List UpiPayment :=
  match get_current_member request_member member_db cookie with
  | none =>
    (Response.redirect (reverse "signup" ++ "?next=/book/plan/" ++ toString plan_id ++ "/"),
     payments)
  | some member =>
    match plans.find? (fun p => p.id == plan_id) with
    | none => (Response.notFound, payments)
    | some plan =>
      if is_post then
        (Response.render "payment_page.html",
         payments ++
           [{ member := member.id
              fitness_class := none
              plan := some plan.id
              amount := plan.price
              upi_ref := upi_ref
              screenshot := screenshot
              confirmed := false }])
      else (Response.render "payment_page.html", payments)

/-! ## Sample rows used to instantiate the theorems on concrete data -/

/-- A concrete member row. -/
def sampleMember : Member :=
  { id := 1, username := "alice", full_name := "Alice A",
    email := "alice@x.com", password := "pw" }

/-- A concrete normalized category. -/
def sampleCategory : Category := { id := 7, name := "Yoga & Zumba", slug := "yoga" }

/-- A category whose linked classes are found only through the legacy
free-text column. -/
def legacyCategory : Category := { id := 9, name := "Yoga", slug := "yoga" }

/-- A class with neither a legacy category nor a normalized reference. -/
def sampleClass : FitnessClass :=
  { id := 1, name := "Yoga", category := none, category_fk := none, price := "100.00" }

/-- A class linked to `sampleCategory` via `category_fk` whose legacy text is
`"Yoga"`. -/
def linkedClass : FitnessClass :=
  { id := 2, name := "Aero", category := some "Yoga", category_fk := some 7,
    price := "50.00" }

/-- The payment record `book_class_payment` creates for `sampleMember` and
`sampleClass`. -/
def samplePayment : UpiPayment :=
  { member := 1, fitness_class := some 1, plan := none, amount := "100.00",
    upi_ref := "r", screenshot := none, confirmed := false }

/-! ## Helper lemmas -/

theorem char_toLower_idem (c : Char) : c.toLower.toLower = c.toLower := by
  simp only [Char.toLower]
  by_cases h : c.toNat ≥ 65 ∧ c.toNat ≤ 90
  · rw [if_pos h]
    have hv : (c.toNat + 32).isValidChar := Or.inl (by omega)
    have ht : (Char.ofNat (c.toNat + 32)).toNat = c.toNat + 32 := by
      simp only [Char.ofNat, hv, dif_pos]
      simp only [Char.ofNatAux, Char.toNat, UInt32.toNat, BitVec.toNat_ofNatLt]
    rw [if_neg (by rw [ht]; omega)]
  · rw [if_neg h, if_neg h]

theorem pyLower_idem (s : String) : pyLower (pyLower s) = pyLower s := by
  unfold pyLower
  have key : ∀ l : List Char, (l.map Char.toLower).map Char.toLower = l.map Char.toLower := by
    intro l
    induction l with
    | nil => rfl
    | cons c t ih => simp [char_toLower_idem, ih]
  exact congrArg String.mk (key s.data)

theorem strLeChars_total (xs ys : List Char) :
    strLeChars xs ys = true ∨ strLeChars ys xs = true := by
  induction xs generalizing ys with
  | nil => left; rfl
  | cons x xs ih =>
    cases ys with
    | nil => right; rfl
    | cons y ys =>
      by_cases h : x.toNat = y.toNat
      · rcases ih ys with h1 | h1
        · left; simp [strLeChars, h, h1]
        · right; simp [strLeChars, h.symm, h1]
      · rcases Nat.lt_or_ge x.toNat y.toNat with hlt | hge
        · left; simp [strLeChars, h, hlt]
        · right
          have hne : y.toNat ≠ x.toNat := fun hh => h hh.symm
          simp [strLeChars, hne]
          omega

theorem strLeChars_trans (xs ys zs : List Char) (h1 : strLeChars xs ys = true)
    (h2 : strLeChars ys zs = true) : strLeChars xs zs = true := by
  induction xs generalizing ys zs with
  | nil => rfl
  | cons x xs ih =>
    cases ys with
    | nil => simp [strLeChars] at h1
    | cons y ys =>
      cases zs with
      | nil => simp [strLeChars] at h2
      | cons z zs =>
        by_cases hxy : x.toNat = y.toNat
        · by_cases hyz : y.toNat = z.toNat
          · have hxz : x.toNat = z.toNat := hxy.trans hyz
            simp only [strLeChars, hxy, if_pos rfl] at h1
            simp only [strLeChars, hyz, if_pos rfl] at h2
            simp only [strLeChars, hxz, if_pos rfl]
            exact ih ys zs h1 h2
          · simp only [strLeChars, if_neg hyz] at h2
            have : y.toNat < z.toNat := by simpa using h2
            have hxz : x.toNat < z.toNat := by omega
            have hne : x.toNat ≠ z.toNat := by omega
            simp [strLeChars, hne, hxz]
        · simp only [strLeChars, if_neg hxy] at h1
          have hlt : x.toNat < y.toNat := by simpa using h1
          by_cases hyz : y.toNat = z.toNat
          · have hxz : x.toNat < z.toNat := by omega
            have hne : x.toNat ≠ z.toNat := by omega
            simp [strLeChars, hne, hxz]
          · simp only [strLeChars, if_neg hyz] at h2
            have : y.toNat < z.toNat := by simpa using h2
            have hxz : x.toNat < z.toNat := by omega
            have hne : x.toNat ≠ z.toNat := by omega
            simp [strLeChars, hne, hxz]

instance : IsTotal FitnessClass nameLe :=
  ⟨fun a b => strLeChars_total a.name.data b.name.data⟩

instance : IsTrans FitnessClass nameLe :=
  ⟨fun a b c h h2 => strLeChars_trans a.name.data b.name.data c.name.data h h2⟩

theorem order_by_name_perm (l : List FitnessClass) : (order_by_name l).Perm l :=
  List.perm_insertionSort nameLe l

theorem order_by_name_sorted (l : List FitnessClass) :
    List.Sorted nameLe (order_by_name l) :=
  List.sorted_insertionSort nameLe l

theorem mem_order_by_name {a : FitnessClass} {l : List FitnessClass} :
    a ∈ order_by_name l ↔ a ∈ l :=
  (order_by_name_perm l).mem_iff

theorem findMember_spec {db : List Member} {ident : String} {m : Member}
    (h : findMember db ident = some m) :
    m ∈ db ∧ (iexact m.email ident = true ∨ iexact m.username ident = true) := by
  unfold findMember at h
  cases h1 : db.find? (fun mm => iexact mm.email ident) with
  | some m2 =>
    rw [h1] at h
    cases h
    have he := List.find?_some h1
    exact ⟨List.mem_of_find?_eq_some h1, Or.inl he⟩
  | none =>
    rw [h1] at h
    have hu := List.find?_some h
    exact ⟨List.mem_of_find?_eq_some h, Or.inr hu⟩

/-- Cookie characterization shared by the two login views: the member cookie
is set exactly when the request is a POST, admin authentication fails, and the
member lookup plus password check succeed. -/
theorem login_view_memberCookie_iff (adminAuth verify : String → String → Bool)
    (db : List Member) (is_post : Bool) (username password : String)
    (gn pn : Option String) (mid : Nat) :
    ((login_view adminAuth verify db is_post username password gn pn).memberCookie
        = some mid
      ↔ (is_post = true ∧ adminAuth (pyStrip username) password = false
          ∧ ∃ m, findMember db (pyStrip username) = some m
              ∧ verify password m.password = true ∧ mid = m.id))
    ∧ ((member_login_view adminAuth verify db is_post username password gn pn).memberCookie
        = some mid
      ↔ (is_post = true ∧ adminAuth (pyStrip username) password = false
          ∧ ∃ m, findMember db (pyStrip username) = some m
              ∧ verify password m.password = true ∧ mid = m.id)) := by
  cases is_post with
  | false => simp [login_view, member_login_view]
  | true =>
    by_cases ha : adminAuth (pyStrip username) password
    · simp [login_view, member_login_view, ha]
    · have ha2 : adminAuth (pyStrip username) password = false := by simpa using ha
      cases hf : findMember db (pyStrip username) with
      | none => simp [login_view, member_login_view, ha2, hf]
      | some m =>
        by_cases hv : verify password m.password
        · have e1 : (login_view adminAuth verify db true username password gn pn).memberCookie
              = some m.id := by
            simp [login_view, ha2, hf, hv]
          have e2 : (member_login_view adminAuth verify db true username password gn pn).memberCookie
              = some m.id := by
            simp [member_login_view, ha2, hf, hv]
          rw [e1, e2]
          have key : some m.id = some mid
              ↔ (True ∧ adminAuth (pyStrip username) password = false
                  ∧ ∃ m2, findMember db (pyStrip username) = some m2
                      ∧ verify password m2.password = true ∧ mid = m2.id) := by
            constructor
            · intro h
              injection h with h2
              exact ⟨trivial, ha2, m, hf, hv, h2.symm⟩
            · rintro ⟨-, -, m2, hm2, hv2, hmid⟩
              rw [hf] at hm2
              injection hm2 with h3
              subst h3
              rw [hmid]
          constructor
          · exact key.trans (by simp [hf])
          · exact key.trans (by simp [hf])
        · have hv2 : verify password m.password = false := by simpa using hv
          have e1 : (login_view adminAuth verify db true username password gn pn).memberCookie
              = none := by
            simp [login_view, ha2, hf, hv2]
          have e2 : (member_login_view adminAuth verify db true username password gn pn).memberCookie
              = none := by
            simp [member_login_view, ha2, hf, hv2]
          rw [e1, e2]
          have key : (none : Option Nat) = some mid
              ↔ (True ∧ adminAuth (pyStrip username) password = false
                  ∧ ∃ m2, findMember db (pyStrip username) = some m2
                      ∧ verify password m2.password = true ∧ mid = m2.id) := by
            constructor
            · intro h
              cases h
            · rintro ⟨-, -, m2, hm2, hvv, -⟩
              rw [hf] at hm2
              injection hm2 with h3
              subst h3
              rw [hvv] at hv2
              cases hv2
          constructor
          · exact key.trans (by simp [hf])
          · exact key.trans (by simp [hf])


/-- Admin branch shared by the two login views: when Django authentication
succeeds on a POST, the session login happens and no member cookie is set. -/
theorem login_view_admin_branch (adminAuth verify : String → String → Bool)
    (db : List Member) (username password : String) (gn pn : Option String)
    (ha : adminAuth (pyStrip username) password = true) :
    (login_view adminAuth verify db true username password gn pn).sessionLogin
        = some (pyStrip username)
    ∧ (login_view adminAuth verify db true username password gn pn).memberCookie = none
    ∧ (login_view adminAuth verify db true username password gn pn).response
        = redirect_with_next "home" gn pn
    ∧ (member_login_view adminAuth verify db true username password gn pn).sessionLogin
        = some (pyStrip username)
    ∧ (member_login_view adminAuth verify db true username password gn pn).memberCookie = none
    ∧ (member_login_view adminAuth verify db true username password gn pn).response
        = Response.redirect "home" := by
  simp [login_view, member_login_view, ha]

/-- Member-success branch shared by the two login views: when Django
authentication fails on a POST and the member lookup plus password check
succeed, the cookie is set and the view redirects. -/
theorem login_view_member_branch (adminAuth verify : String → String → Bool)
    (db : List Member) (username password : String) (gn pn : Option String)
    (m : Member) (ha : adminAuth (pyStrip username) password = false)
    (hf : findMember db (pyStrip username) = some m)
    (hv : verify password m.password = true) :
    (login_view adminAuth verify db true username password gn pn).memberCookie = some m.id
    ∧ (login_view adminAuth verify db true username password gn pn).response
        = redirect_with_next "home" gn pn
    ∧ (member_login_view adminAuth verify db true username password gn pn).memberCookie
        = some m.id
    ∧ (member_login_view adminAuth verify db true username password gn pn).response
        = Response.redirect "home" := by
  simp [login_view, member_login_view, ha, hf, hv]

/-! ## Claim theorems -/

/-- C1: for every request the resolved member identity follows the
precedence: an identity already attached to the request by middleware is
returned as is; otherwise the signed cookie is decoded and verified, parsed
as an integer id, and looked up; a missing cookie, a bad signature, a
malformed payload, or an id matching no member row all resolve to "no
member" (`none`), and a matching row resolves to that member.  The resolver
is a total function into `Option Member`, so it never raises. -/
theorem get_current_member_resolution (db : List Member) (reqM : Option Member)
    (c : CookieVal) :
    (∀ m : Member, reqM = some m → get_current_member reqM db c = some m)
    ∧ (reqM = none → c = CookieVal.absent → get_current_member reqM db c = none)
    ∧ (reqM = none → c = CookieVal.badSig → get_current_member reqM db c = none)
    ∧ (∀ s, reqM = none → c = CookieVal.ok s → pyInt s = none →
        get_current_member reqM db c = none)
    ∧ (∀ s i, reqM = none → c = CookieVal.ok s → pyInt s = some i →
        (∀ m ∈ db, (m.id : Int) ≠ i) → get_current_member reqM db c = none)
    ∧ (∀ s i m, reqM = none → c = CookieVal.ok s → pyInt s = some i →
        (db.filter (fun m => (m.id : Int) == i)).head? = some m →
        get_current_member reqM db c = some m) := by
  refine ⟨?_, ?_, ?_, ?_, ?_, ?_⟩
  · rintro m rfl
    rfl
  · rintro rfl rfl
    rfl
  · rintro rfl rfl
    rfl
  · rintro s rfl rfl hp
    by_cases he : s = ""
    · simp [get_current_member, he]
    · simp [get_current_member, he, hp]
  · rintro s i rfl rfl hp hno
    by_cases he : s = ""
    · simp [get_current_member, he]
    · have hfil : db.filter (fun m => (m.id : Int) == i) = [] := by
        rw [List.filter_eq_nil_iff]
        intro m hm
        simpa using hno m hm
      simp [get_current_member, he, hp, hfil]
  · rintro s i m rfl rfl hp hh
    by_cases he : s = ""
    · rw [he] at hp
      cases hp
    · simp [get_current_member, he, hp, hh]

/-- C1 witness: a verified cookie whose payload parses to the id `2` of no
member resolves to `none` for a database holding only member `1`. -/
theorem get_current_member_resolution_witness :
    get_current_member none [sampleMember] (CookieVal.ok "2") = none :=
  (get_current_member_resolution [sampleMember] none (CookieVal.ok "2")).2.2.2.2.1
    "2" 2 rfl rfl (by decide) (by decide)

/-- C10: the template context processor returns `site_member` equal to
`request.member` (the value set by the middleware, or `none`); the cookie
decode it performs internally never influences the returned value, so it is
equivalent to the function that just reads `request.member`. -/
theorem current_member_reads_request_member (reqM : Option Member)
    (db : List Member) (c : CookieVal) :
    current_member reqM db c = current_member_spec reqM := rfl

/-- C5: on every login submission, administrator authentication is attempted
first — when it succeeds the session login happens and no member cookie is
set — and the member cookie is set exactly when the request is a POST on
which administrator authentication failed and the member lookup (email
`__iexact` first, else username `__iexact`, embodied by `findMember`)
produced a member whose password hash verifies. -/
theorem login_admin_precedence_cookie_iff (adminAuth verify : String → String → Bool)
    (db : List Member) (is_post : Bool) (username password : String)
    (gn pn : Option String) :
    (is_post = true → adminAuth (pyStrip username) password = true →
      (login_view adminAuth verify db is_post username password gn pn).sessionLogin
          = some (pyStrip username)
      ∧ (login_view adminAuth verify db is_post username password gn pn).memberCookie = none
      ∧ (member_login_view adminAuth verify db is_post username password gn pn).sessionLogin
          = some (pyStrip username)
      ∧ (member_login_view adminAuth verify db is_post username password gn pn).memberCookie
          = none)
    ∧ (∀ mid, (login_view adminAuth verify db is_post username password gn pn).memberCookie
          = some mid
        ↔ (is_post = true ∧ adminAuth (pyStrip username) password = false
            ∧ ∃ m, findMember db (pyStrip username) = some m
                ∧ verify password m.password = true ∧ mid = m.id))
    ∧ (∀ mid, (member_login_view adminAuth verify db is_post username password gn pn).memberCookie
          = some mid
        ↔ (is_post = true ∧ adminAuth (pyStrip username) password = false
            ∧ ∃ m, findMember db (pyStrip username) = some m
                ∧ verify password m.password = true ∧ mid = m.id)) := by
  refine ⟨?_, ?_, ?_⟩
  · rintro rfl ha
    have h := login_view_admin_branch adminAuth verify db username password gn pn ha
    exact ⟨h.1, h.2.1, h.2.2.2.1, h.2.2.2.2.1⟩
  · intro mid
    exact (login_view_memberCookie_iff adminAuth verify db is_post username password gn pn mid).1
  · intro mid
    exact (login_view_memberCookie_iff adminAuth verify db is_post username password gn pn mid).2

/-- C5 witness: with an always-failing admin store and hash verification by
string equality, the member login POST for `sampleMember` sets the cookie to
its id. -/
theorem login_admin_precedence_cookie_iff_witness :
    (login_view (fun _ _ => false) (fun a b => a == b) [sampleMember] true
        "alice@x.com" "pw" none none).memberCookie = some 1 :=
  ((login_admin_precedence_cookie_iff (fun _ _ => false) (fun a b => a == b)
      [sampleMember] true "alice@x.com" "pw" none none).2.1 1).mpr
    ⟨rfl, rfl, sampleMember, by decide, by decide, by decide⟩

/-- C6: member authentication never cross-matches accounts: whenever either
login view ends up setting the member cookie to `mid`, the database holds a
member with that id whose own email or username `__iexact`-matches the
submitted identifier and whose own password hash verifies the submitted
password. -/
theorem member_login_no_cross_match (adminAuth verify : String → String → Bool)
    (db : List Member) (is_post : Bool) (username password : String)
    (gn pn : Option String) (mid : Nat)
    (h : (login_view adminAuth verify db is_post username password gn pn).memberCookie
            = some mid
        ∨ (member_login_view adminAuth verify db is_post username password gn pn).memberCookie
            = some mid) :
    ∃ m ∈ db, m.id = mid
      ∧ (iexact m.email (pyStrip username) = true
          ∨ iexact m.username (pyStrip username) = true)
      ∧ verify password m.password = true := by
  have hiff := login_view_memberCookie_iff adminAuth verify db is_post username password gn pn mid
  have hc : is_post = true ∧ adminAuth (pyStrip username) password = false
      ∧ ∃ m, findMember db (pyStrip username) = some m
          ∧ verify password m.password = true ∧ mid = m.id := by
    rcases h with h | h
    · exact hiff.1.mp h
    · exact hiff.2.mp h
  rcases hc with ⟨-, -, m, hf, hv, rfl⟩
  rcases findMember_spec hf with ⟨hmem, hmatch⟩
  exact ⟨m, hmem, rfl, hmatch, hv⟩

/-- C6 witness: instantiated at `sampleMember`, whose email matches the
submitted identifier and whose password verifies. -/
theorem member_login_no_cross_match_witness :
    ∃ m ∈ [sampleMember], m.id = 1
      ∧ (iexact m.email (pyStrip "alice@X.com") = true
          ∨ iexact m.username (pyStrip "alice@X.com") = true)
      ∧ (fun (a b : String) => a == b) "pw" m.password = true :=
  member_login_no_cross_match (fun _ _ => false) (fun a b => a == b) [sampleMember]
    true "alice@X.com" "pw" none none 1 (Or.inl (by decide))



/-- C2 counterexample: a successful member login POST on `member_login_view`
(the `signup` route, i.e. the member login page) carrying the relative
`next=/profile/` still redirects to `"home"`, so the claim that every login
request honors a relative `next` is false. -/
theorem member_login_ignores_next_counterexample :
    (member_login_view (fun _ _ => false) (fun a b => a == b) [sampleMember] true
        "alice@x.com" "pw" (some "/profile/") none).memberCookie = some 1
    ∧ urlparse_scheme_netloc "/profile/" = ("", "")
    ∧ (member_login_view (fun _ _ => false) (fun a b => a == b) [sampleMember] true
        "alice@x.com" "pw" (some "/profile/") none).response = Response.redirect "home"
    ∧ Response.redirect "home" ≠ Response.redirect "/profile/" :=
  ⟨by decide, by decide, by decide, by decide⟩

/-- C2 (amended): the `next`-honoring redirect logic lives in
`_redirect_with_next`, used by `login_view` (route `staff_login`): a
non-empty `next` is followed exactly when its parse shows neither a scheme
nor a netloc, else the redirect falls back to the default (`"home"`); both
successful branches of `login_view` route through it.  `member_login_view`
(route `signup`) always redirects to `"home"` after a successful login,
ignoring `next`. -/
theorem login_redirect_next_amended (adminAuth verify : String → String → Bool)
    (db : List Member) (username password : String) (gn pn : Option String)
    (nextV : String) (hne : nextV ≠ "") :
    (redirect_with_next "home" (some nextV) pn
      = if (urlparse_scheme_netloc nextV).1 = "" ∧ (urlparse_scheme_netloc nextV).2 = ""
        then Response.redirect nextV else Response.redirect "home")
    ∧ (adminAuth (pyStrip username) password = true →
        (login_view adminAuth verify db true username password gn pn).response
            = redirect_with_next "home" gn pn
        ∧ (member_login_view adminAuth verify db true username password gn pn).response
            = Response.redirect "home")
    ∧ (∀ m, adminAuth (pyStrip username) password = false →
        findMember db (pyStrip username) = some m → verify password m.password = true →
        (login_view adminAuth verify db true username password gn pn).response
            = redirect_with_next "home" gn pn
        ∧ (member_login_view adminAuth verify db true username password gn pn).response
            = Response.redirect "home") := by
  refine ⟨?_, ?_, ?_⟩
  · simp [redirect_with_next, pyOrStr, hne]
  · intro ha
    have h := login_view_admin_branch adminAuth verify db username password gn pn ha
    exact ⟨h.2.2.1, h.2.2.2.2.2⟩
  · intro m ha hf hv
    have h := login_view_member_branch adminAuth verify db username password gn pn m ha hf hv
    exact ⟨h.2.1, h.2.2.2⟩

/-- C2 (amended) witness: a relative `next` is honored by the redirect
helper. -/
theorem login_redirect_next_amended_witness :
    redirect_with_next "home" (some "/profile/") none = Response.redirect "/profile/" :=
  ((login_redirect_next_amended (fun _ _ => false) (fun a b => a == b) [sampleMember]
      "alice@x.com" "pw" none none "/profile/" (by decide)).1).trans (by decide)


/-- C3 counterexample: the slug `"-"` matches no `Category` row and splits
into no keywords, yet resolution returns every class (Django's empty `Q()`
filter is a no-op), so membership is NOT the deduplicated union over the
keywords (which would be empty). -/
theorem classes_by_category_empty_slug_counterexample :
    classes_by_category [] [sampleClass] "-" = [sampleClass]
    ∧ split_keywords "-" = []
    ∧ ¬ (∀ k, k ∈ classes_by_category [] [sampleClass] "-" ↔
        (k ∈ [sampleClass] ∧ ∃ kw ∈ split_keywords "-", class_matches_keyword k kw = true)) := by
  refine ⟨by decide, by decide, ?_⟩
  intro h
  have h2 := (h sampleClass).1 (by decide)
  rcases h2.2 with ⟨kw, hkw, -⟩
  have he : split_keywords "-" = [] := by decide
  rw [he] at hkw
  exact List.not_mem_nil kw hkw

/-- C3 (amended): a slug matching an existing `Category` row with classes
linked by the normalized reference resolves to exactly those classes ordered
by name; a slug matching no `Category` row that splits into at least one
keyword resolves to the deduplicated union, over the keywords, of classes
whose name or legacy free-text category case-insensitively contains the
keyword (ordered by name); a slug yielding no keywords at all (only hyphens
or whitespace) resolves to all classes, because the accumulated `Q()` filter
is empty. -/
theorem classes_by_category_resolution (cats : List Category)
    (classes : List FitnessClass) (slug : String) :
    (∀ cat, cats.find? (fun c => c.slug == slug) = some cat →
      classes.filter (fun k => k.category_fk == some cat.id) ≠ [] →
      (classes_by_category cats classes slug).Perm
          (classes.filter (fun k => k.category_fk == some cat.id))
      ∧ List.Sorted nameLe (classes_by_category cats classes slug))
    ∧ (cats.find? (fun c => c.slug == slug) = none → split_keywords slug ≠ [] →
      (∀ k, k ∈ classes_by_category cats classes slug ↔
        (k ∈ classes ∧ ∃ kw ∈ split_keywords slug, class_matches_keyword k kw = true))
      ∧ (classes_by_category cats classes slug).Nodup
      ∧ List.Sorted nameLe (classes_by_category cats classes slug))
    ∧ (cats.find? (fun c => c.slug == slug) = none → split_keywords slug = [] →
      (classes_by_category cats classes slug).Perm classes.dedup) := by
  refine ⟨?_, ?_, ?_⟩
  · intro cat hfind hne
    have hemp : (classes.filter (fun k => k.category_fk == some cat.id)).isEmpty = false := by
      cases hl : classes.filter (fun k => k.category_fk == some cat.id) with
      | nil => exact absurd hl hne
      | cons a t => rfl
    have he : classes_by_category cats classes slug
        = order_by_name (classes.filter (fun k => k.category_fk == some cat.id)) := by
      unfold classes_by_category
      rw [hfind]
      simp [hemp]
    rw [he]
    exact ⟨order_by_name_perm _, order_by_name_sorted _⟩
  · intro hfind hkw
    have hkw2 : (split_keywords slug).isEmpty = false := by
      cases hl : split_keywords slug with
      | nil => exact absurd hl hkw
      | cons a t => rfl
    have he : classes_by_category cats classes slug
        = order_by_name ((classes.filter
            (fun k => (split_keywords slug).any (class_matches_keyword k))).dedup) := by
      unfold classes_by_category
      rw [hfind]
      simp [hkw2]
    rw [he]
    refine ⟨?_, ?_, order_by_name_sorted _⟩
    · intro k
      rw [mem_order_by_name, List.mem_dedup, List.mem_filter, List.any_eq_true]
    · exact ((order_by_name_perm _).symm).nodup (List.nodup_dedup _)
  · intro hfind hkw
    have he : classes_by_category cats classes slug = order_by_name classes.dedup := by
      unfold classes_by_category
      rw [hfind, hkw]
      simp
    rw [he]
    exact (order_by_name_perm _).trans (List.Perm.refl _)

/-- C3 (amended) witness: the slug `"yoga"` matches `sampleCategory`, whose
linked class list `[linkedClass]` is returned sorted by name. -/
theorem classes_by_category_resolution_witness :
    (classes_by_category [sampleCategory] [linkedClass] "yoga").Perm
        ([linkedClass].filter (fun k => k.category_fk == some sampleCategory.id))
    ∧ List.Sorted nameLe (classes_by_category [sampleCategory] [linkedClass] "yoga") :=
  (classes_by_category_resolution [sampleCategory] [linkedClass] "yoga").1
    sampleCategory (by decide) (by decide)

/-- C4: a slug that matches a `Category` row whose normalized-reference
lookup yields no classes falls back to an exact case-insensitive match of
the legacy free-text column against the matched category's name, ordered by
name. -/
theorem classes_by_category_legacy_fallback (cats : List Category)
    (classes : List FitnessClass) (slug : String) (cat : Category)
    (hfind : cats.find? (fun c => c.slug == slug) = some cat)
    (hempty : classes.filter (fun k => k.category_fk == some cat.id) = []) :
    (classes_by_category cats classes slug).Perm
        (classes.filter (fun k => iexactOpt k.category cat.name))
    ∧ List.Sorted nameLe (classes_by_category cats classes slug) := by
  have he : classes_by_category cats classes slug
      = order_by_name (classes.filter (fun k => iexactOpt k.category cat.name)) := by
    unfold classes_by_category
    rw [hfind]
    simp [hempty]
  rw [he]
  exact ⟨order_by_name_perm _, order_by_name_sorted _⟩

/-- C4 witness: `legacyCategory` (name `"Yoga"`, id `9`) has no class linked
by `category_fk`, so resolution falls back to the legacy text `"Yoga"` of
`linkedClass`. -/
theorem classes_by_category_legacy_fallback_witness :
    (classes_by_category [legacyCategory] [linkedClass] "yoga").Perm
        ([linkedClass].filter (fun k => iexactOpt k.category legacyCategory.name))
    ∧ List.Sorted nameLe (classes_by_category [legacyCategory] [linkedClass] "yoga") :=
  classes_by_category_legacy_fallback [legacyCategory] [linkedClass] "yoga"
    legacyCategory (by decide) (by decide)


/-- C7: a payment request (class or plan booking) by a visitor with no
resolved member identity is redirected to the login page with the original
booking path preserved in `next`, and the payment table is left unchanged. -/
theorem unauthenticated_payment_redirects (reqM : Option Member) (mdb : List Member)
    (ck : CookieVal) (classes : List FitnessClass) (plans : List Plan)
    (class_id plan_id : Nat) (is_post : Bool) (upi_ref : String)
    (screenshot : Option String) (payments : List UpiPayment)
    (h : get_current_member reqM mdb ck = none) :
    book_class_payment reqM mdb ck classes class_id is_post upi_ref screenshot payments
      = (Response.redirect ("/signup/?next=/book/class/" ++ toString class_id ++ "/"),
         payments)
    ∧ book_plan_payment reqM mdb ck plans plan_id is_post upi_ref screenshot payments
      = (Response.redirect ("/signup/?next=/book/plan/" ++ toString plan_id ++ "/"),
         payments) := by
  have e1 : reverse "signup" ++ "?next=/book/class/" = "/signup/?next=/book/class/" := by
    decide
  have e2 : reverse "signup" ++ "?next=/book/plan/" = "/signup/?next=/book/plan/" := by
    decide
  constructor
  · unfold book_class_payment
    rw [h, e1]
  · unfold book_plan_payment
    rw [h, e2]

/-- C7 witness: with no middleware identity and no cookie, booking class 1
redirects to the login page carrying the booking path, creating nothing. -/
theorem unauthenticated_payment_redirects_witness :
    book_class_payment none [] CookieVal.absent [sampleClass] 1 true "r" none []
      = (Response.redirect ("/signup/?next=/book/class/" ++ toString 1 ++ "/"), [])
    ∧ book_plan_payment none [] CookieVal.absent [] 3 true "r" none []
      = (Response.redirect ("/signup/?next=/book/plan/" ++ toString 3 ++ "/"), []) :=
  unauthenticated_payment_redirects none [] CookieVal.absent [sampleClass] [] 1 3
    true "r" none [] rfl

/-- C8: a registration submission whose email equals an existing member's
email up to case (after the whitespace stripping the form itself performs)
fails validation, the form is re-rendered, and no second member row is
created. -/
theorem duplicate_email_registration_rejected (hash : String → String)
    (fieldOk : RegistrationData → Bool) (db : List Member) (d : RegistrationData)
    (new_id : Nat) (m : Member) (hm : m ∈ db)
    (hdup : pyLower m.email = pyLower (pyStrip d.email)) :
    member_registration_form_is_valid fieldOk db d = false
    ∧ registration_view hash fieldOk db true d new_id
        = (Response.render "registration.html", db) := by
  have hany : db.any (fun mm => iexact mm.email (pyLower (pyStrip d.email))) = true := by
    rw [List.any_eq_true]
    refine ⟨m, hm, ?_⟩
    unfold iexact
    rw [hdup, pyLower_idem]
    exact beq_self_eq_true _
  have hce : (clean_email db d.email).isOk = false := by
    unfold clean_email
    rw [if_pos hany]
    rfl
  have hv : member_registration_form_is_valid fieldOk db d = false := by
    unfold member_registration_form_is_valid
    rw [hce]
    simp
  refine ⟨hv, ?_⟩
  unfold registration_view
  rw [if_pos rfl, if_neg (by rw [hv]; exact Bool.false_ne_true)]

/-- C8 witness: registering `"Alice@X.com"` against a table already holding
`alice@x.com` is rejected and the table is unchanged. -/
theorem duplicate_email_registration_rejected_witness :
    member_registration_form_is_valid (fun _ => true) [sampleMember]
        { username := "bob", full_name := "B", email := "Alice@X.com",
          password1 := "p", password2 := "p" } = false
    ∧ registration_view (fun p => p ++ "#h") (fun _ => true) [sampleMember] true
        { username := "bob", full_name := "B", email := "Alice@X.com",
          password1 := "p", password2 := "p" } 2
      = (Response.render "registration.html", [sampleMember]) :=
  duplicate_email_registration_rejected (fun p => p ++ "#h") (fun _ => true)
    [sampleMember]
    { username := "bob", full_name := "B", email := "Alice@X.com",
      password1 := "p", password2 := "p" } 2 sampleMember (by decide) (by decide)

/-- C9: a `UpiPayment` belongs to exactly one member (its `member` foreign
key is non-nullable; the created record carries the resolved member's id)
and references at most one of {class, plan}: assuming every existing payment
does so, every payment after a booking-handler run still does, and every
newly created record references exactly the booked class (resp. plan), no
plan (resp. class), and is persisted unconfirmed. -/
theorem upi_payment_exactly_one_target (reqM : Option Member) (mdb : List Member)
    (ck : CookieVal) (classes : List FitnessClass) (plans : List Plan)
    (class_id plan_id : Nat) (is_post : Bool) (upi_ref : String)
    (screenshot : Option String) (payments : List UpiPayment)
    (hinv : ∀ q ∈ payments, ¬(q.fitness_class.isSome = true ∧ q.plan.isSome = true)) :
    (∀ p ∈ (book_class_payment reqM mdb ck classes class_id is_post upi_ref
        screenshot payments).2,
      ¬(p.fitness_class.isSome = true ∧ p.plan.isSome = true)
      ∧ (p ∉ payments →
          p.fitness_class = some class_id ∧ p.plan = none ∧ p.confirmed = false
          ∧ ∃ m, get_current_member reqM mdb ck = some m ∧ p.member = m.id))
    ∧ (∀ p ∈ (book_plan_payment reqM mdb ck plans plan_id is_post upi_ref
        screenshot payments).2,
      ¬(p.fitness_class.isSome = true ∧ p.plan.isSome = true)
      ∧ (p ∉ payments →
          p.plan = some plan_id ∧ p.fitness_class = none ∧ p.confirmed = false
          ∧ ∃ m, get_current_member reqM mdb ck = some m ∧ p.member = m.id)) := by
  constructor
  · intro p hp
    unfold book_class_payment at hp
    cases hcm : get_current_member reqM mdb ck with
    | none =>
      rw [hcm] at hp
      exact ⟨hinv p hp, fun hnot => absurd hp hnot⟩
    | some member =>
      rw [hcm] at hp
      cases hfc : classes.find? (fun k => k.id == class_id) with
      | none =>
        rw [hfc] at hp
        exact ⟨hinv p hp, fun hnot => absurd hp hnot⟩
      | some gym_class =>
        rw [hfc] at hp
        cases is_post with
        | false => exact ⟨hinv p hp, fun hnot => absurd hp hnot⟩
        | true =>
          simp at hp
          rcases hp with hp | hp
          · exact ⟨hinv p hp, fun hnot => absurd hp hnot⟩
          · subst hp
            have hid : gym_class.id = class_id := by
              have := List.find?_some hfc
              simpa using this
            refine ⟨by simp, fun _ => ?_⟩
            exact ⟨by simpa using hid, rfl, rfl, member, rfl, rfl⟩
  · intro p hp
    unfold book_plan_payment at hp
    cases hcm : get_current_member reqM mdb ck with
    | none =>
      rw [hcm] at hp
      exact ⟨hinv p hp, fun hnot => absurd hp hnot⟩
    | some member =>
      rw [hcm] at hp
      cases hfc : plans.find? (fun k => k.id == plan_id) with
      | none =>
        rw [hfc] at hp
        exact ⟨hinv p hp, fun hnot => absurd hp hnot⟩
      | some plan =>
        rw [hfc] at hp
        cases is_post with
        | false => exact ⟨hinv p hp, fun hnot => absurd hp hnot⟩
        | true =>
          simp at hp
          rcases hp with hp | hp
          · exact ⟨hinv p hp, fun hnot => absurd hp hnot⟩
          · subst hp
            have hid : plan.id = plan_id := by
              have := List.find?_some hfc
              simpa using this
            refine ⟨by simp, fun _ => ?_⟩
            exact ⟨by simpa using hid, rfl, rfl, member, rfl, rfl⟩

/-- C9 witness: instantiated at `sampleMember` booking `sampleClass`; the
created `samplePayment` references exactly the class and is unconfirmed. -/
theorem upi_payment_exactly_one_target_witness :
    ¬(samplePayment.fitness_class.isSome = true ∧ samplePayment.plan.isSome = true)
    ∧ (samplePayment ∉ ([] : List UpiPayment) →
        samplePayment.fitness_class = some 1 ∧ samplePayment.plan = none
        ∧ samplePayment.confirmed = false
        ∧ ∃ m, get_current_member (some sampleMember) [] CookieVal.absent = some m
            ∧ samplePayment.member = m.id) :=
  (upi_payment_exactly_one_target (some sampleMember) [] CookieVal.absent
      [sampleClass] [] 1 0 true "r" none [] (by decide)).1
    samplePayment (by decide)

end CFitness
